import Mathlib

/-!
# Verification of the AwsS3 storage provider (`src/providers/storage/awsS3.ts`)

A shallow embedding of the `AwsS3` class.  JavaScript runtime behaviour is
made explicit:

* optional / possibly-absent values are `Option`;
* a thrown `new Error(msg)` or a `TypeError` (property access on `undefined`)
  is an `Except.error` carrying a `JsError`;
* template-literal interpolation of an object uses the default
  `Object.prototype.toString`, which yields `"[object Object]"`;
* JavaScript truthiness of an optional string (`undefined` and `""` are
  falsy) is `jsTruthy`;
* `String.prototype.split` with a one-character separator is `jsSplitChar`
  on the character list, `String.prototype.endsWith` is a suffix test on the
  character list.

Every method is a function from the provider state `AwsS3` (the `options`
record plus the memoized `S3Connection` field) to a result paired with the
state after the call.  The AWS SDK response to `listObjectsV2` is passed in
as an explicit `ListObjectsV2Output` argument.
-/

/-- A JavaScript runtime error: either an explicitly constructed
`new Error(msg)` or a `TypeError` raised by a property access on
`undefined`. -/
inductive JsError : Type
  | error (msg : String)
  | typeError (msg : String)
deriving DecidableEq, Repr

/-- JavaScript truthiness of a possibly-absent string:
`undefined` and the empty string are falsy. -/
def jsTruthy : Option String → Bool
  | none => false
  | some s => s ≠ ""

/-- Template-literal interpolation of a possibly-absent string:
`undefined` prints as `"undefined"`. -/
def jsStr : Option String → String
  | none => "undefined"
  | some s => s

/-- `IAwsS3Options` as a runtime record: the TypeScript interface declares
every field as a required `string`, but at runtime any field may be absent,
so each is an `Option`. -/
structure IAwsS3Options where
  accessKeyId : Option String
  secretAccessKeyId : Option String
  bucket : Option String
  folder : Option String
  region : Option String
  apiVersion : Option String
deriving DecidableEq, Repr

/-- One object descriptor in an S3 listing (an element of
`ListObjectsV2Output.Contents`): a plain record whose `Key` may be absent. -/
structure S3Object where
  Key : Option String
deriving DecidableEq, Repr

/-- Template-literal interpolation of a plain object uses
`Object.prototype.toString`, producing `"[object Object]"`. -/
def s3ObjectToString (_file : S3Object) : String := "[object Object]"

/-- The part of the `listObjectsV2` response the provider reads.  In the
SDK typings `Contents` is optional, hence the `Option`. -/
structure ListObjectsV2Output where
  Contents : Option (List S3Object)
deriving DecidableEq, Repr

/-- The `S3` client object built by `new S3({...})`: it records the
configuration it was constructed with. -/
structure S3 where
  region : Option String
  apiVersion : Option String
  accessKeyId : Option String
  secretAccessKey : Option String
deriving DecidableEq, Repr

/-- The state of one `AwsS3` provider instance: the `options` record fixed
at construction and the private `S3Connection` singleton field, absent
until `getS3Connection` first runs. -/
structure AwsS3 where
  options : IAwsS3Options
  S3Connection : Option S3
deriving DecidableEq, Repr

namespace AwsS3

/-- The constructor.  `constructor(private options?: IAwsS3Options)`
stores `options` and runs
`if (!this.options.apiVersion) this.options.apiVersion = 'latest'`;
when `options` is absent, the property access `this.options.apiVersion`
throws a `TypeError`. -/
def construct (options : Option IAwsS3Options) : Except JsError AwsS3 :=
  match options with
  | none =>
      Except.error (JsError.typeError
        "Cannot read properties of undefined (reading apiVersion)")
  | some o =>
      let o := if jsTruthy o.apiVersion then o else { o with apiVersion := some "latest" }
      Except.ok { options := o, S3Connection := none }

/-- `getFullPath()`: the template literal `${bucket}/${folder}`. -/
def getFullPath (st : AwsS3) : String :=
  jsStr st.options.bucket ++ "/" ++ jsStr st.options.folder

/-- `getS3Connection()`: return the memoized `S3Connection` if present,
otherwise construct a `new S3({...})` from the options, store it in the
field and return it. -/
def getS3Connection (st : AwsS3) : S3 × AwsS3 :=
  match st.S3Connection with
  | some c => (c, st)
  | none =>
      let c : S3 :=
        { region := st.options.region
          apiVersion := st.options.apiVersion
          accessKeyId := st.options.accessKeyId
          secretAccessKey := st.options.secretAccessKeyId }
      (c, { st with S3Connection := some c })

/-- `listContainers(path)`: read `this.options.bucket`, call
`listObjectsV2({Bucket, Prefix})` through the memoized connection, drop the
first element of `Contents` with `slice(1)`, and decorate each remaining
object with the template literal `${bucket}${file}`.  When `Contents` is
absent, `.slice` on `undefined` throws a `TypeError`.  The `path` argument
is unused (the source comment says "NOT USED IN THIS FUNCTION"). -/
def listContainers (out : ListObjectsV2Output) (_path : Option String)
    (st : AwsS3) : Except JsError (List String) × AwsS3 :=
  let bucket := st.options.bucket
  let (_, st) := getS3Connection st
  match out.Contents with
  | none =>
      (Except.error (JsError.typeError
        "Cannot read properties of undefined (reading slice)"), st)
  | some contents =>
      let filesOnly := contents.drop 1
      (Except.ok (filesOnly.map (fun file => jsStr bucket ++ s3ObjectToString file)), st)

/-- JavaScript `file.endsWith(ext)`: a suffix test on the character
sequences. -/
def jsEndsWith (s suffix : String) : Bool :=
  suffix.data.isSuffixOf s.data

/-- `listFiles(path, ext?)`: call `listContainers(null)` and keep the
entries passing `!!ext ? file.endsWith(ext) : true`.  The `path` argument
is unused (the source comment says "NOT USED IN CURRENT IMPLEMENTATION"). -/
def listFiles (out : ListObjectsV2Output) (_path : Option String)
    (ext : Option String) (st : AwsS3) : Except JsError (List String) × AwsS3 :=
  match listContainers out none st with
  | (Except.error e, st) => (Except.error e, st)
  | (Except.ok files, st) =>
      (Except.ok (files.filter
        (fun file => if jsTruthy ext then jsEndsWith file (jsStr ext) else true)), st)

/-- The `initialize()` method (named `init` here, since the source name is
a Lean keyword): perform `this.listContainers(null)` as a smoke test (and
log the result); propagate its error, return nothing on success. -/
def init (out : ListObjectsV2Output) (st : AwsS3) :
    Except JsError Unit × AwsS3 :=
  match listContainers out none st with
  | (Except.error e, st) => (Except.error e, st)
  | (Except.ok _, st) => (Except.ok (), st)

/-- `getBlockBlobURL(blobName)`: the body is commented out and the method
throws unconditionally. -/
def getBlockBlobURL (_blobName : String) : Except JsError Unit :=
  Except.error (JsError.error "getBlockBlobURL not implemented for AwsS3 provider")

/-- `bodyToString(response)`: the body is commented out and the method
throws unconditionally. -/
def bodyToString (_response : Unit) : Except JsError String :=
  Except.error (JsError.error "bodyToString not implemented for AwsS3 provider")

/-- `readText(blobName)`: obtain the block-blob URL, download, convert the
body to a string.  Each step's thrown error propagates. -/
def readText (blobName : String) (st : AwsS3) : Except JsError String × AwsS3 :=
  match getBlockBlobURL blobName with
  | Except.error e => (Except.error e, st)
  | Except.ok blockBlobURL =>
      match bodyToString blockBlobURL with
      | Except.error e => (Except.error e, st)
      | Except.ok s => (Except.ok s, st)

/-- The bytes of `Buffer.from(text)`: the UTF-8 encoding of the string. -/
def bufferFrom (s : String) : List Nat :=
  s.toUTF8.toList.map (fun b => b.toNat)

/-- `readBinary(blobName)`: `const text = await this.readText(blobName);
return Buffer.from(text);`. -/
def readBinary (blobName : String) (st : AwsS3) :
    Except JsError (List Nat) × AwsS3 :=
  match readText blobName st with
  | (Except.error e, st) => (Except.error e, st)
  | (Except.ok text, st) => (Except.ok (bufferFrom text), st)

/-- The `content` argument of `writeText`: `string | Buffer`. -/
inductive JsContent : Type
  | str (s : String)
  | buf (b : List Nat)
deriving DecidableEq, Repr

/-- `writeText(blobName, content)`: throws unconditionally. -/
def writeText (_blobName : String) (_content : JsContent) (st : AwsS3) :
    Except JsError Unit × AwsS3 :=
  (Except.error (JsError.error "writeText not implemented"), st)

/-- `writeBinary(blobName, content)`: delegates to `writeText`. -/
def writeBinary (blobName : String) (content : List Nat) (st : AwsS3) :
    Except JsError Unit × AwsS3 :=
  writeText blobName (JsContent.buf content) st

/-- `deleteFile(blobName)`: throws unconditionally. -/
def deleteFile (_blobName : String) (st : AwsS3) :
    Except JsError Unit × AwsS3 :=
  (Except.error (JsError.error "deleteFile not implemented"), st)

/-- `createContainer(containerName)`: throws unconditionally. -/
def createContainer (_containerName : String) (st : AwsS3) :
    Except JsError Unit × AwsS3 :=
  (Except.error (JsError.error "createContainer not implemented for AwsS3 provider"), st)

/-- `deleteContainer(containerName)`: throws unconditionally. -/
def deleteContainer (_containerName : String) (st : AwsS3) :
    Except JsError Unit × AwsS3 :=
  (Except.error (JsError.error "deleteContainer not implemented for AwsS3 provider"), st)

/-- `getAssets(containerName?)`: the body is commented out and the method
throws unconditionally.  The asset list type is left abstract as `Unit`
records since no asset is ever produced. -/
def getAssets (_containerName : Option String) (st : AwsS3) :
    Except JsError (List Unit) × AwsS3 :=
  (Except.error (JsError.error "getAssets not implemented for AwsS3 provider"), st)

/-- JavaScript `String.prototype.split` with a one-character separator,
on the character list: `""` splits to `[[]]`, and the result always has
one more part than there are separator occurrences. -/
def jsSplitChar (sep : Char) : List Char → List (List Char)
  | [] => [[]]
  | c :: cs =>
      if c = sep then [] :: jsSplitChar sep cs
      else
        match jsSplitChar sep cs with
        | [] => [[c]]
        | p :: ps => (c :: p) :: ps

/-- `getFileName(url)`:
`const pathParts = url.split("/"); return pathParts[pathParts.length - 1].split("?")[0];`. -/
def getFileName (url : String) : String :=
  let pathParts := jsSplitChar '/' url.data
  String.mk ((jsSplitChar '?' (pathParts.getLastD [])).headD [])

end AwsS3

/-! ## Specification-side definitions

These are written from the spec's words, to be compared with the
definitions above, which are translated from the source. -/

/-- Spec side: the final `/`-delimited segment of a URL, i.e. the suffix
after the last `/` (the whole string when there is no `/`). -/
def finalSegment (url : String) : String :=
  String.mk ((url.data.reverse.takeWhile (fun c => c ≠ '/')).reverse)

/-- Spec side: strip a trailing `?query` suffix, i.e. keep the characters
before the first `?`. -/
def stripQuery (s : String) : String :=
  String.mk (s.data.takeWhile (fun c => c ≠ '?'))

/-- Spec side: `readBinary` as the spec describes it — the byte buffer
obtained by re-encoding the string `readText` returns, with errors and
state passed through. -/
def readBinarySpec (blobName : String) (st : AwsS3) :
    Except JsError (List Nat) × AwsS3 :=
  ((AwsS3.readText blobName st).1.map AwsS3.bufferFrom,
   (AwsS3.readText blobName st).2)

/-- Whether the character sequence of a message contains the phrase
`"not implemented"`. -/
def containsNotImplemented (msg : String) : Bool :=
  msg.data.tails.any (fun t => "not implemented".data.isPrefixOf t)

/-- A thrown error is the spec's `Unsupported` outcome when it is a
deliberate `new Error(...)` whose message says the operation is not
implemented. -/
def JsError.isUnsupported : JsError → Bool
  | JsError.error msg => containsNotImplemented msg
  | JsError.typeError _ => false

/-- A `TypeError` from dereferencing `undefined` is a
null-reference-style crash (as opposed to a deliberate error value). -/
def JsError.isNullRefCrash : JsError → Bool
  | JsError.error _ => false
  | JsError.typeError _ => true

/-! ## Helper lemmas -/

/-- The result value of `listContainers` is determined by the backend
response and the options record alone; the memoized connection plays no
part in it. -/
lemma listContainers_fst (out : ListObjectsV2Output) (p : Option String)
    (st : AwsS3) :
    (AwsS3.listContainers out p st).1 =
      match out.Contents with
      | none =>
          Except.error (JsError.typeError
            "Cannot read properties of undefined (reading slice)")
      | some contents =>
          Except.ok ((contents.drop 1).map
            (fun file => jsStr st.options.bucket ++ s3ObjectToString file)) := by
  rcases out with ⟨contents⟩
  rcases st with ⟨opts, conn⟩
  cases conn <;> cases contents <;> rfl

/-- The state after `listContainers` is the input state with the
connection memoized. -/
lemma listContainers_snd (out : ListObjectsV2Output) (p : Option String)
    (st : AwsS3) :
    (AwsS3.listContainers out p st).2 = (AwsS3.getS3Connection st).2 := by
  rcases out with ⟨contents⟩
  rcases st with ⟨opts, conn⟩
  cases conn <;> cases contents <;> rfl

/-- `getS3Connection` never changes the options record. -/
lemma getS3Connection_options (st : AwsS3) :
    ((AwsS3.getS3Connection st).2).options = st.options := by
  rcases st with ⟨opts, conn⟩
  cases conn <;> rfl

/-- The result value of `listFiles` is the filtered result value of
`listContainers`. -/
lemma listFiles_fst (out : ListObjectsV2Output) (p ext : Option String)
    (st : AwsS3) :
    (AwsS3.listFiles out p ext st).1 =
      Except.map
        (fun files => files.filter
          (fun file => if jsTruthy ext then AwsS3.jsEndsWith file (jsStr ext) else true))
        (AwsS3.listContainers out none st).1 := by
  unfold AwsS3.listFiles
  rcases h : AwsS3.listContainers out none st with ⟨r, st2⟩
  cases r <;> simp [h, Except.map]

/-- The state after `init` is the input state with the connection
memoized. -/
lemma init_snd (out : ListObjectsV2Output) (st : AwsS3) :
    (AwsS3.init out st).2 = (AwsS3.getS3Connection st).2 := by
  unfold AwsS3.init
  rcases h : AwsS3.listContainers out none st with ⟨r, st2⟩
  have h2 := listContainers_snd out none st
  rw [h] at h2
  cases r <;> simpa [h] using h2

/-- A JavaScript split never produces an empty list of parts. -/
lemma jsSplitChar_ne_nil (sep : Char) (l : List Char) :
    AwsS3.jsSplitChar sep l ≠ [] := by
  induction l with
  | nil => simp [AwsS3.jsSplitChar]
  | cons c cs ih =>
      unfold AwsS3.jsSplitChar
      by_cases h : c = sep
      · simp [h]
      · rw [if_neg h]
        cases hs : AwsS3.jsSplitChar sep cs <;> simp

/-- The first part of a split is the longest separator-free start of the
input. -/
lemma headD_jsSplitChar (sep : Char) (l : List Char) :
    (AwsS3.jsSplitChar sep l).headD [] = l.takeWhile (fun c => c ≠ sep) := by
  induction l with
  | nil => rfl
  | cons c cs ih =>
      unfold AwsS3.jsSplitChar
      by_cases h : c = sep
      · rw [if_pos h]
        simp [List.takeWhile_cons, h]
      · rw [if_neg h]
        cases hs : AwsS3.jsSplitChar sep cs with
        | nil => exact absurd hs (jsSplitChar_ne_nil sep cs)
        | cons p ps =>
            have hp : p = cs.takeWhile (fun x => x ≠ sep) := by
              rw [← ih, hs]
              rfl
            simp [List.takeWhile_cons, h, hp]

/-- A split with a single part means the input is that part and holds no
separator. -/
lemma jsSplitChar_eq_single (sep : Char) (l p : List Char)
    (h : AwsS3.jsSplitChar sep l = [p]) : l = p ∧ sep ∉ l := by
  induction l generalizing p with
  | nil =>
      unfold AwsS3.jsSplitChar at h
      injection h with h1 _
      exact ⟨h1.symm ▸ rfl, by simp⟩
  | cons c cs ih =>
      unfold AwsS3.jsSplitChar at h
      by_cases hc : c = sep
      · rw [if_pos hc] at h
        injection h with _ h2
        exact absurd h2 (jsSplitChar_ne_nil sep cs)
      · rw [if_neg hc] at h
        cases hs : AwsS3.jsSplitChar sep cs with
        | nil => exact absurd hs (jsSplitChar_ne_nil sep cs)
        | cons q qs =>
            rw [hs] at h
            injection h with h1 h2
            subst h2
            obtain ⟨hq, hmem⟩ := ih q hs
            constructor
            · rw [← h1, hq]
            · intro hsm
              rcases List.mem_cons.mp hsm with hh | hh
              · exact hc hh.symm
              · exact hmem hh

/-- A separator-free input splits into a single part, itself. -/
lemma jsSplitChar_of_not_mem (sep : Char) (l : List Char) (h : sep ∉ l) :
    AwsS3.jsSplitChar sep l = [l] := by
  induction l with
  | nil => rfl
  | cons c cs ih =>
      have hc : ¬ c = sep := by
        intro hh
        exact h (by rw [hh]; exact List.mem_cons_self sep cs)
      unfold AwsS3.jsSplitChar
      rw [if_neg hc, ih (fun hm => h (List.mem_cons_of_mem c hm))]

/-- Appending one failing element does not change a `takeWhile`. -/
lemma takeWhile_append_sing_neg (p : Char → Bool) (l : List Char) (x : Char)
    (h : p x = false) :
    (l ++ [x]).takeWhile p = l.takeWhile p := by
  induction l with
  | nil => simp [List.takeWhile_cons, h]
  | cons c cs ih => cases hpc : p c <;> simp [List.takeWhile_cons, hpc, ih]

/-- Appending after a failing element does not change a `takeWhile`. -/
lemma takeWhile_append_failing (p : Char → Bool) (l l2 : List Char)
    (h : ∃ y ∈ l, p y = false) :
    (l ++ l2).takeWhile p = l.takeWhile p := by
  induction l with
  | nil =>
      rcases h with ⟨y, hy, _⟩
      cases hy
  | cons c cs ih =>
      rcases h with ⟨y, hy, hpy⟩
      rcases List.mem_cons.mp hy with rfl | hy2
      · cases hpc : p y
        · simp [List.takeWhile_cons, hpc]
        · rw [hpc] at hpy
          cases hpy
      · cases hpc : p c
        · simp [List.takeWhile_cons, hpc]
        · simp [List.takeWhile_cons, hpc, ih ⟨y, hy2, hpy⟩]

/-- `takeWhile` walks through a wholly passing block. -/
lemma takeWhile_append_all (p : Char → Bool) (l l2 : List Char)
    (h : ∀ y ∈ l, p y = true) :
    (l ++ l2).takeWhile p = l ++ l2.takeWhile p := by
  induction l with
  | nil => rfl
  | cons c cs ih =>
      simp [List.takeWhile_cons, h c (List.mem_cons_self c cs),
        ih (fun y hy => h y (List.mem_cons_of_mem c hy))]

/-- The last part of a split is the longest separator-free end of the
input. -/
lemma getLastD_jsSplitChar (sep : Char) (l : List Char) :
    (AwsS3.jsSplitChar sep l).getLastD [] =
      (l.reverse.takeWhile (fun c => c ≠ sep)).reverse := by
  induction l with
  | nil => rfl
  | cons c cs ih =>
      unfold AwsS3.jsSplitChar
      by_cases hc : c = sep
      · rw [if_pos hc, List.getLastD_cons, List.reverse_cons,
          takeWhile_append_sing_neg _ _ c (by simp [hc])]
        exact ih
      · rw [if_neg hc]
        cases hs : AwsS3.jsSplitChar sep cs with
        | nil => exact absurd hs (jsSplitChar_ne_nil sep cs)
        | cons q qs =>
            cases qs with
            | nil =>
                obtain ⟨hq, hmem⟩ := jsSplitChar_eq_single sep cs q hs
                have hall : ∀ y ∈ cs.reverse, (fun x => decide (x ≠ sep)) y = true := by
                  intro y hy
                  have : y ∈ cs := List.mem_reverse.mp hy
                  simp
                  intro heq
                  exact hmem (heq ▸ this)
                rw [List.reverse_cons, takeWhile_append_all _ _ _ hall]
                simp [List.takeWhile_cons, hc, hq]
            | cons q2 qs2 =>
                have hmem : sep ∈ cs := by
                  by_contra hnm
                  rw [jsSplitChar_of_not_mem sep cs hnm] at hs
                  injection hs with _ h2
                  cases h2
                have hL : ((c :: q) :: q2 :: qs2).getLastD [] =
                    (q :: q2 :: qs2).getLastD [] := by
                  rw [List.getLastD_cons, List.getLastD_cons,
                    List.getLastD_cons, List.getLastD_cons]
                rw [hL, ← hs, List.reverse_cons,
                  takeWhile_append_failing _ _ _
                    ⟨sep, List.mem_reverse.mpr hmem, by simp⟩]
                exact ih

/-- `getFileName` computes exactly the spec's description: the final
`/`-delimited segment of the URL with everything from the first `?` on
stripped. -/
lemma getFileName_eq (url : String) :
    AwsS3.getFileName url = stripQuery (finalSegment url) := by
  unfold AwsS3.getFileName stripQuery finalSegment
  dsimp only
  rw [getLastD_jsSplitChar, headD_jsSplitChar]

/-! ## Claim theorems -/

/-- C10: the `path` argument of `listFiles` and `listContainers` has no
effect on the result: for any two path values and the same state, backend
response and extension filter, the calls return the same result and the
same final state; only the configured options determine what is listed. -/
theorem pathArgumentIrrelevant (out : ListObjectsV2Output)
    (p1 p2 ext : Option String) (st : AwsS3) :
    AwsS3.listFiles out p1 ext st = AwsS3.listFiles out p2 ext st ∧
    AwsS3.listContainers out p1 st = AwsS3.listContainers out p2 st :=
  ⟨rfl, rfl⟩

/-- C3: each operation this backend cannot implement — `writeText`,
`writeBinary`, `deleteFile`, `createContainer`, `deleteContainer`,
`getAssets` — fails with an error classified as the `Unsupported` outcome,
for every input and every state, and leaves the state unchanged (no silent
no-op, no partial success). -/
theorem unsupportedOpsFail (st : AwsS3) (b : String) (c : AwsS3.JsContent)
    (bb : List Nat) (n : String) (cn : Option String) :
    (AwsS3.writeText b c st =
        (Except.error (JsError.error "writeText not implemented"), st) ∧
      (JsError.error "writeText not implemented").isUnsupported = true) ∧
    (AwsS3.writeBinary b bb st =
        (Except.error (JsError.error "writeText not implemented"), st)) ∧
    (AwsS3.deleteFile b st =
        (Except.error (JsError.error "deleteFile not implemented"), st) ∧
      (JsError.error "deleteFile not implemented").isUnsupported = true) ∧
    (AwsS3.createContainer n st =
        (Except.error (JsError.error "createContainer not implemented for AwsS3 provider"), st) ∧
      (JsError.error "createContainer not implemented for AwsS3 provider").isUnsupported = true) ∧
    (AwsS3.deleteContainer n st =
        (Except.error (JsError.error "deleteContainer not implemented for AwsS3 provider"), st) ∧
      (JsError.error "deleteContainer not implemented for AwsS3 provider").isUnsupported = true) ∧
    (AwsS3.getAssets cn st =
        (Except.error (JsError.error "getAssets not implemented for AwsS3 provider"), st) ∧
      (JsError.error "getAssets not implemented for AwsS3 provider").isUnsupported = true) :=
  ⟨⟨rfl, by decide⟩, rfl, ⟨rfl, by decide⟩, ⟨rfl, by decide⟩, ⟨rfl, by decide⟩,
    ⟨rfl, by decide⟩⟩

/-- C4: `readBinary` is the binary view of the text-read path: for every
blob name and state it returns exactly what the spec describes — the byte
buffer obtained by re-encoding the string `readText` returns, with the
error and the state passed through unchanged. -/
theorem readBinaryDelegatesToReadText (b : String) (st : AwsS3) :
    AwsS3.readBinary b st = readBinarySpec b st := rfl

/-- C9: the provider holds at most one connection handle: construction
leaves the `S3Connection` field empty (lazy), `getS3Connection` stores the
handle it returns, calling it again returns the same handle and the same
state (memoization, no re-creation), and an operation that needs the
connection (`listContainers`) leaves exactly that handle memoized. -/
theorem connectionMemoized (o : IAwsS3Options) (st : AwsS3)
    (out : ListObjectsV2Output) (p : Option String) :
    (∃ st0, AwsS3.construct (some o) = Except.ok st0 ∧ st0.S3Connection = none) ∧
    ((AwsS3.getS3Connection st).2).S3Connection = some (AwsS3.getS3Connection st).1 ∧
    AwsS3.getS3Connection (AwsS3.getS3Connection st).2 =
      ((AwsS3.getS3Connection st).1, (AwsS3.getS3Connection st).2) ∧
    ((AwsS3.listContainers out p st).2).S3Connection =
      some (AwsS3.getS3Connection st).1 := by
  refine ⟨?_, ?_, ?_, ?_⟩
  · unfold AwsS3.construct
    by_cases h : jsTruthy o.apiVersion = true <;> simp [h]
  · rcases st with ⟨opts, conn⟩
    cases conn <;> rfl
  · rcases st with ⟨opts, conn⟩
    cases conn <;> rfl
  · rw [listContainers_snd]
    rcases st with ⟨opts, conn⟩
    cases conn <;> rfl

/-- C7 fails on the code: `listContainers` decorates each entry with the
template literal `${bucket}${file}` where `file` is the raw object record,
so every returned entry is the bucket name followed by
`"[object Object]"`, not the bucket name followed by the object's key.
At a listing holding an object with key `"folder/a.png"` under bucket
`"mybucket"` the code returns `"mybucket[object Object]"`, which differs
from the decorated key `"mybucketfolder/a.png"` the claim demands. -/
theorem listContainersDecorationBug :
    (AwsS3.listContainers
        ⟨some [⟨some "folder/"⟩, ⟨some "folder/a.png"⟩]⟩ none
        { options :=
            { accessKeyId := some "k", secretAccessKeyId := some "s"
              bucket := some "mybucket", folder := some "folder"
              region := some "r", apiVersion := some "latest" }
          S3Connection := none }).1
      = Except.ok ["mybucket[object Object]"] ∧
    ("mybucket[object Object]" : String) ≠ "mybucket" ++ "folder/a.png" :=
  ⟨rfl, by decide⟩

/-- C1 fails on the code: a provider instance that has never been
initialized does not fail its data operations with `NotReady` — on a
freshly constructed instance, with no `initialize()` call, `listFiles`
succeeds as soon as the backend responds. -/
theorem uninitializedListFilesSucceeds :
    AwsS3.construct (some
        { accessKeyId := some "k", secretAccessKeyId := some "s"
          bucket := some "b", folder := some "f"
          region := some "r", apiVersion := none }) =
      Except.ok
        { options :=
            { accessKeyId := some "k", secretAccessKeyId := some "s"
              bucket := some "b", folder := some "f"
              region := some "r", apiVersion := some "latest" }
          S3Connection := none } ∧
    (AwsS3.listFiles ⟨some [⟨some "f/"⟩, ⟨some "f/a.png"⟩]⟩ none none
        { options :=
            { accessKeyId := some "k", secretAccessKeyId := some "s"
              bucket := some "b", folder := some "f"
              region := some "r", apiVersion := some "latest" }
          S3Connection := none }).1
      = Except.ok ["b[object Object]"] :=
  ⟨rfl, rfl⟩

/-- C1 amended: the provider keeps no readiness state at all.
`initialize()` merely runs the `listContainers` smoke test (memoizing the
connection), and every operation returns the same result value on a
never-initialized instance as it does after `initialize()`; no operation
is gated on initialization. -/
theorem noReadinessGating (out out2 : ListObjectsV2Output) (st : AwsS3)
    (p ext : Option String) (b : String) (c : AwsS3.JsContent)
    (bb : List Nat) (cn : Option String) :
    (AwsS3.listFiles out2 p ext ((AwsS3.init out st).2)).1 =
      (AwsS3.listFiles out2 p ext st).1 ∧
    (AwsS3.listContainers out2 p ((AwsS3.init out st).2)).1 =
      (AwsS3.listContainers out2 p st).1 ∧
    (AwsS3.readText b ((AwsS3.init out st).2)).1 = (AwsS3.readText b st).1 ∧
    (AwsS3.readBinary b ((AwsS3.init out st).2)).1 = (AwsS3.readBinary b st).1 ∧
    (AwsS3.writeText b c ((AwsS3.init out st).2)).1 = (AwsS3.writeText b c st).1 ∧
    (AwsS3.writeBinary b bb ((AwsS3.init out st).2)).1 = (AwsS3.writeBinary b bb st).1 ∧
    (AwsS3.deleteFile b ((AwsS3.init out st).2)).1 = (AwsS3.deleteFile b st).1 ∧
    (AwsS3.getAssets cn ((AwsS3.init out st).2)).1 = (AwsS3.getAssets cn st).1 := by
  have hopts : ((AwsS3.init out st).2).options = st.options := by
    rw [init_snd, getS3Connection_options]
  have hlc : ∀ q : Option String,
      (AwsS3.listContainers out2 q ((AwsS3.init out st).2)).1 =
        (AwsS3.listContainers out2 q st).1 := by
    intro q
    rw [listContainers_fst, listContainers_fst, hopts]
  refine ⟨?_, hlc p, rfl, rfl, rfl, rfl, rfl, rfl⟩
  rw [listFiles_fst, listFiles_fst, hlc none]

/-- C2: when the backend returns the entry representing the scoped root
first (and nowhere else), `listContainers` drops exactly that first raw
entry: the result decorates precisely the remaining entries, and no raw
entry contributing to the result carries the root key. -/
theorem rootEntryDropped (contents : List S3Object) (root : S3Object)
    (rest : List S3Object) (p : Option String) (st : AwsS3) (rootKey : String)
    (hc : contents = root :: rest) (_hroot : root.Key = some rootKey)
    (hrest : ∀ o ∈ rest, o.Key ≠ some rootKey) :
    (AwsS3.listContainers ⟨some contents⟩ p st).1 =
      Except.ok (rest.map
        (fun file => jsStr st.options.bucket ++ s3ObjectToString file)) ∧
    (∀ o ∈ contents.drop 1, o.Key ≠ some rootKey) ∧
    ∀ ext : Option String, ∃ files,
      (AwsS3.listFiles ⟨some contents⟩ p ext st).1 = Except.ok files ∧
      files ⊆ rest.map
        (fun file => jsStr st.options.bucket ++ s3ObjectToString file) := by
  subst hc
  refine ⟨?_, hrest, ?_⟩
  · rw [listContainers_fst]
    rfl
  · intro ext
    rw [listFiles_fst, listContainers_fst]
    exact ⟨_, rfl, fun x hx => (List.mem_filter.mp hx).1⟩

/-- Witness for C2 at a concrete listing: a root entry `"f/"` followed by
one object, under bucket `"b"`. -/
theorem rootEntryDroppedWitness :
    (AwsS3.listContainers ⟨some [⟨some "f/"⟩, ⟨some "f/a.png"⟩]⟩ none
        { options :=
            { accessKeyId := some "k", secretAccessKeyId := some "s"
              bucket := some "b", folder := some "f"
              region := some "r", apiVersion := some "latest" }
          S3Connection := none }).1
      = Except.ok ([(⟨some "f/a.png"⟩ : S3Object)].map
          (fun file => jsStr (some "b") ++ s3ObjectToString file)) ∧
    (∀ o ∈ ([⟨some "f/"⟩, ⟨some "f/a.png"⟩] : List S3Object).drop 1,
      o.Key ≠ some "f/") ∧
    ∀ ext : Option String, ∃ files,
      (AwsS3.listFiles ⟨some [⟨some "f/"⟩, ⟨some "f/a.png"⟩]⟩ none ext
          { options :=
              { accessKeyId := some "k", secretAccessKeyId := some "s"
                bucket := some "b", folder := some "f"
                region := some "r", apiVersion := some "latest" }
            S3Connection := none }).1 = Except.ok files ∧
      files ⊆ [(⟨some "f/a.png"⟩ : S3Object)].map
        (fun file => jsStr (some "b") ++ s3ObjectToString file) :=
  rootEntryDropped [⟨some "f/"⟩, ⟨some "f/a.png"⟩] ⟨some "f/"⟩ [⟨some "f/a.png"⟩]
    none
    { options :=
        { accessKeyId := some "k", secretAccessKeyId := some "s"
          bucket := some "b", folder := some "f"
          region := some "r", apiVersion := some "latest" }
      S3Connection := none }
    "f/" rfl rfl (by decide)

/-- C8 fails on the code: constructing the provider with an absent options
object does not fail with a configuration error — the constructor's
`this.options.apiVersion` access crashes with a null-reference-style
`TypeError`. -/
theorem absentOptionsCrash :
    AwsS3.construct none =
      Except.error (JsError.typeError
        "Cannot read properties of undefined (reading apiVersion)") ∧
    (JsError.typeError
        "Cannot read properties of undefined (reading apiVersion)").isNullRefCrash
      = true :=
  ⟨rfl, rfl⟩

/-- C8 amended: construction with an absent options object fails with a
null-reference-style `TypeError` (not a configuration error), and
construction with any present options record — in particular one missing
every credential and bucket field — succeeds without validation, so no
configuration error is ever raised at construction. -/
theorem constructionNeverValidates (o : IAwsS3Options) :
    (∃ e, AwsS3.construct none = Except.error e ∧ e.isNullRefCrash = true) ∧
    (∃ st0, AwsS3.construct (some o) = Except.ok st0) := by
  constructor
  · exact ⟨_, rfl, rfl⟩
  · unfold AwsS3.construct
    by_cases h : jsTruthy o.apiVersion = true <;> simp [h]

/-- The conditional-truthiness predicate of `listFiles` agrees with the
plain suffix test: when the extension is present but empty it is falsy,
yet a suffix match against the empty string also keeps everything. -/
lemma truthyPred_eq_suffixPred (e : String) :
    (fun file => if jsTruthy (some e) then AwsS3.jsEndsWith file (jsStr (some e)) else true)
    = (fun f => AwsS3.jsEndsWith f e) := by
  funext file
  by_cases he : e = ""
  · subst he
    simp [jsTruthy, jsStr, AwsS3.jsEndsWith]
  · simp [jsTruthy, jsStr, he]

/-- C6: the extension filter of `listFiles` is exactly a suffix match on
the entries of the underlying listing: with a filter present the result
keeps precisely the entries ending with the extension, with the filter
absent it keeps all entries, and when every entry ends with the extension
the filtered and unfiltered calls agree. -/
theorem extensionFilterIsSuffixMatch (out : ListObjectsV2Output) (st : AwsS3)
    (p : Option String) :
    (∀ e : String, (AwsS3.listFiles out p (some e) st).1 =
        Except.map (fun files => files.filter (fun f => AwsS3.jsEndsWith f e))
          (AwsS3.listContainers out none st).1) ∧
    (AwsS3.listFiles out p none st).1 = (AwsS3.listContainers out none st).1 ∧
    (∀ (e : String) (files : List String),
      (AwsS3.listContainers out none st).1 = Except.ok files →
      (∀ f ∈ files, AwsS3.jsEndsWith f e = true) →
      (AwsS3.listFiles out p none st).1 = (AwsS3.listFiles out p (some e) st).1) := by
  have h2 : (AwsS3.listFiles out p none st).1 = (AwsS3.listContainers out none st).1 := by
    rw [listFiles_fst]
    cases h : (AwsS3.listContainers out none st).1 <;> simp [h, Except.map, jsTruthy]
  refine ⟨?_, h2, ?_⟩
  · intro e
    rw [listFiles_fst, truthyPred_eq_suffixPred]
  · intro e files h hall
    rw [h2, h, listFiles_fst, truthyPred_eq_suffixPred, h]
    show Except.ok files = Except.ok (files.filter (fun f => AwsS3.jsEndsWith f e))
    rw [List.filter_eq_self.mpr hall]

/-- Witness for C6's agreement clause: against a backend listing whose
single decorated entry ends with `"]"`, filtering on `"]"` returns the
same entries as not filtering. -/
theorem extensionFilterWitness :
    (AwsS3.listFiles ⟨some [⟨some "f/"⟩, ⟨some "f/a.png"⟩]⟩ none none
        { options :=
            { accessKeyId := some "k", secretAccessKeyId := some "s"
              bucket := some "b", folder := some "f"
              region := some "r", apiVersion := some "latest" }
          S3Connection := none }).1
      = (AwsS3.listFiles ⟨some [⟨some "f/"⟩, ⟨some "f/a.png"⟩]⟩ none (some "]")
        { options :=
            { accessKeyId := some "k", secretAccessKeyId := some "s"
              bucket := some "b", folder := some "f"
              region := some "r", apiVersion := some "latest" }
          S3Connection := none }).1 :=
  (extensionFilterIsSuffixMatch ⟨some [⟨some "f/"⟩, ⟨some "f/a.png"⟩]⟩
      { options :=
          { accessKeyId := some "k", secretAccessKeyId := some "s"
            bucket := some "b", folder := some "f"
            region := some "r", apiVersion := some "latest" }
        S3Connection := none }
      none).2.2 "]" ["b[object Object]"] rfl (by decide)

/-- C5: for every URL string, `getFileName` returns the final
`/`-delimited segment with any trailing `?query` suffix stripped; in
particular `getFileName "https://host/a/b/c.png?sig=xyz" = "c.png"`. -/
theorem getFileNameStripsQuery :
    (∀ url : String, AwsS3.getFileName url = stripQuery (finalSegment url)) ∧
    AwsS3.getFileName "https://host/a/b/c.png?sig=xyz" = "c.png" :=
  ⟨getFileName_eq, by decide⟩
